import Mathlib

/-
Verification development for the mesh-router-agent repository.

The agent code is asynchronous TypeScript talking HTTP to a backend and to a
filesystem.  The embedding below is a shallow one: every outcome of an external
effect (a fetch call resolving or rejecting, a response body parsing as JSON or
not, a file being present on disk or not, a certificate PEM parsing or not) is
passed in explicitly as oracle data, and each source function becomes a total
Lean function from that oracle data to the value the TypeScript function
returns (with thrown exceptions modelled as Except.error).  Machine state that
the code mutates (the route object of the main loop, the certificate files on
disk) is threaded explicitly.

Sources embedded:
  - src/src/services/IpRegistrar.ts   (fetch-based registration client)
  - src/src/config/EnvConfig.ts       (parseProvider)
  - src/unnamed/part_000              (main lifecycle loop, first document)
  - src/unnamed/part_002              (CertificateManager.ts)
-/

namespace MeshAgent

/-- JavaScript truthiness of an optional string value: undefined and the empty
string are falsy, every other string is truthy. -/
def truthy : Option String → Bool
  | none => false
  | some s => !(s == "")

/-- JavaScript expression a OR d where a is an optional string: yields d when a
is undefined or empty, otherwise a. -/
def orDefault (o : Option String) (d : String) : String :=
  match o with
  | none => d
  | some s => if s = "" then d else s

/-- ProviderConfig from EnvConfig.ts. -/
structure ProviderConfig where
  backendUrl : String
  userId : String
  signature : String
deriving DecidableEq, Repr

/-- HealthCheckConfig from EnvConfig.ts. -/
structure HealthCheckConfig where
  path : String
  host : Option String
deriving DecidableEq, Repr

/-- Route from IpRegistrar.ts. -/
structure Route where
  ip : String
  port : Int
  priority : Int
  healthCheck : Option HealthCheckConfig
deriving DecidableEq, Repr

/-- Outcome of parsing a response body as JSON and decoding it to a value of
shape alpha: response.json() either rejects with a message or yields a value. -/
inductive ParseResult (α : Type) where
  | malformed (msg : String)
  | value (a : α)
deriving DecidableEq, Repr

/-- Oracle for one fetch POST exchange: either the fetch promise rejects
(timeout abort, connection refused, DNS failure) with a message, or a response
arrives with an HTTP status code and a body whose JSON parse outcome is
recorded. -/
inductive PostOutcome (α : Type) where
  | netError (msg : String)
  | reply (status : Nat) (body : ParseResult α)
deriving DecidableEq, Repr

/-- Oracle for one fetch GET exchange: either the fetch promise rejects with a
message, or a response arrives with a status code, a status text and a raw
body text. -/
inductive GetOutcome where
  | netError (msg : String)
  | reply (status : Nat) (statusText : String) (body : String)
deriving DecidableEq, Repr

/-- Fetch Response.ok: status in the 2xx range. -/
def responseOk (status : Nat) : Bool :=
  decide (200 ≤ status ∧ status < 300)

/-- httpGet from IpRegistrar.ts: throws the network error, throws on a non-2xx
status, otherwise returns the body text. -/
def httpGet (o : GetOutcome) : Except String String :=
  match o with
  | .netError msg => .error msg
  | .reply status statusText body =>
    if responseOk status then .ok body
    else .error ("HTTP " ++ toString status ++ ": " ++ statusText)

/-- httpPost from IpRegistrar.ts: throws the network error, otherwise parses
the body as JSON and returns it.  Note the source never consults response.ok
here: the HTTP status code of a delivered response is ignored. -/
def httpPost {α : Type} (o : PostOutcome α) : Except String α :=
  match o with
  | .netError msg => .error msg
  | .reply _ body =>
    match body with
    | .malformed msg => .error msg
    | .value a => .ok a

/-- Shape of the backend reply body consumed by registerRoutes; every field is
optional in the JSON. -/
structure RouteRegResponse where
  error : Option String
  message : Option String
  routes : Option (List Route)
  domain : Option String
deriving DecidableEq, Repr

/-- RouteRegistrationResult from IpRegistrar.ts. -/
structure RouteRegistrationResult where
  success : Bool
  message : String
  routes : Option (List Route)
  domain : Option String
  error : Option String
deriving DecidableEq, Repr

/-- registerRoutes from IpRegistrar.ts.  The provider and route list only feed
the request URL and body; the returned result is computed from the exchange
outcome exactly as in the source: a thrown error (network failure or JSON
parse failure) is caught and becomes success false with the thrown message, a
parsed body with a truthy error field becomes success false carrying that
field, and any other parsed body becomes success true. -/
def registerRoutes (provider : ProviderConfig) (routes : List Route)
    (outcome : PostOutcome RouteRegResponse) : RouteRegistrationResult :=
  match httpPost outcome with
  | .error m =>
    { success := false, message := "Route registration request failed",
      routes := none, domain := none, error := some m }
  | .ok resp =>
    if truthy resp.error then
      { success := false, message := "Route registration failed",
        routes := none, domain := none, error := resp.error }
    else
      { success := true,
        message := orDefault resp.message "Routes registered successfully",
        routes := resp.routes, domain := resp.domain, error := none }

/-- Shape of the backend reply body consumed by sendHeartbeat. -/
structure HeartbeatResponse where
  error : Option String
  message : Option String
  lastSeenOnline : Option String
deriving DecidableEq, Repr

/-- HeartbeatResult from IpRegistrar.ts. -/
structure HeartbeatResult where
  success : Bool
  message : String
  lastSeenOnline : Option String
  error : Option String
deriving DecidableEq, Repr

/-- sendHeartbeat from IpRegistrar.ts, same catch-all structure as
registerRoutes. -/
def sendHeartbeat (provider : ProviderConfig)
    (outcome : PostOutcome HeartbeatResponse) : HeartbeatResult :=
  match httpPost outcome with
  | .error m =>
    { success := false, message := "Heartbeat request failed",
      lastSeenOnline := none, error := some m }
  | .ok resp =>
    if truthy resp.error then
      { success := false, message := "Heartbeat failed",
        lastSeenOnline := none, error := resp.error }
    else
      { success := true,
        message := orDefault resp.message "Heartbeat sent",
        lastSeenOnline := resp.lastSeenOnline, error := none }

/-- checkBackendHealth from IpRegistrar.ts: true iff the GET succeeds with a
2xx status and the body text parses as JSON.  The ability of JSON.parse to
parse a given text is oracle data (jsonParses). -/
def checkBackendHealth (jsonParses : String → Bool) (outcome : GetOutcome) : Bool :=
  match httpGet outcome with
  | .error _ => false
  | .ok text => jsonParses text

/-- buildRoute from IpRegistrar.ts. -/
def buildRoute (ip : String) (port priority : Int)
    (healthCheck : Option HealthCheckConfig) : Route :=
  { ip := ip, port := port, priority := priority, healthCheck := healthCheck }

/-- JavaScript String.split on a single separator character, on the character
list of the string: splits at every separator, keeping empty segments, and
yields one (possibly empty) segment even for the empty input. -/
def jsSplitOn (sep : Char) : List Char → List (List Char)
  | [] => [[]]
  | c :: rest =>
    if c = sep then [] :: jsSplitOn sep rest
    else
      match jsSplitOn sep rest with
      | [] => [[c]]
      | h :: t => (c :: h) :: t

/-- Octet alternation of the IPv4 regex in isValidIp:
25[0-5] or 2[0-4][0-9] or [01]?[0-9][0-9]?. -/
def isOctet (l : List Char) : Bool :=
  match l with
  | [a] => a.isDigit
  | [a, b] => a.isDigit && b.isDigit
  | [a, b, c] =>
    (a == '2' && b == '5' && decide ('0' ≤ c) && decide (c ≤ '5')) ||
    (a == '2' && decide ('0' ≤ b) && decide (b ≤ '4') && c.isDigit) ||
    ((a == '0' || a == '1') && b.isDigit && c.isDigit)
  | _ => false

/-- Full anchored IPv4 regex of isValidIp: exactly four octets separated by
dots. -/
def isIpv4 (l : List Char) : Bool :=
  decide ((jsSplitOn '.' l).length = 4) && (jsSplitOn '.' l).all isOctet

/-- Character class [0-9a-fA-F:] of the IPv6 regex in isValidIp. -/
def isHexColonChar (c : Char) : Bool :=
  c.isDigit || (decide ('a' ≤ c) && decide (c ≤ 'f')) ||
    (decide ('A' ≤ c) && decide (c ≤ 'F')) || c == ':'

/-- isValidIp from IpRegistrar.ts: the IPv4 regex matches, or the string
contains a colon and consists only of hex digits and colons. -/
def isValidIp (s : String) : Bool :=
  isIpv4 s.data || (s.data.contains ':' && s.data.all isHexColonChar)

/-- JavaScript String.trim: strip whitespace from both ends. -/
def jsTrim (s : String) : String :=
  String.mk (((s.data.dropWhile Char.isWhitespace).reverse.dropWhile
    Char.isWhitespace).reverse)

/-- Ordered fallback HTTP echo services of detectPublicIp. -/
def httpServices : List String :=
  ["https://api.ipify.org", "https://ifconfig.me/ip", "https://icanhazip.com"]

/-- Message of the exception thrown when every discovery attempt failed. -/
def discoveryFailMsg : String :=
  "Failed to detect public IP from all STUN and HTTP services"

/-- Outcome of one fallback service attempt, as detectPublicIp consumes it:
none when the GET fails or the trimmed body is not a valid IP literal, some ip
when the trimmed body is a valid IP literal. -/
def serviceResult (fetchOf : String → GetOutcome) (s : String) : Option String :=
  match httpGet (fetchOf s) with
  | .error _ => none
  | .ok text =>
    if isValidIp (jsTrim text) then some (jsTrim text) else none

/-- Fallback loop of detectPublicIp over a list of services: try each in
order, return the first trimmed body that is a valid IP, throw when the list
is exhausted. -/
def tryServices (fetchOf : String → GetOutcome) : List String → Except String String
  | [] => .error discoveryFailMsg
  | s :: rest =>
    match httpGet (fetchOf s) with
    | .error _ => tryServices fetchOf rest
    | .ok text =>
      if isValidIp (jsTrim text) then .ok (jsTrim text)
      else tryServices fetchOf rest

/-- detectPublicIp from IpRegistrar.ts.  The primary STUN attempt (implemented
in StunClient.ts, outside the embedded sources and consumed as a single
attempt-discovery capability) is oracle data: it either yields an address or
fails.  On failure the fixed fallback list is scanned once. -/
def detectPublicIp (stun : Except String String)
    (fetchOf : String → GetOutcome) : Except String String :=
  match stun with
  | .ok ip => .ok ip
  | .error _ => tryServices fetchOf httpServices

/-- Test whether a character list starts with the four characters http, as
startsWith http does in parseProvider. -/
def startsWithHttp : List Char → Bool
  | 'h' :: 't' :: 't' :: 'p' :: _ => true
  | _ => false

/-- Message of the exception thrown by parseProvider on a missing or empty
field. -/
def invalidProviderMsg : String :=
  "Invalid PROVIDER format. Expected: <backend_url>,<userid>,<signature>"

/-- Message of the exception thrown by parseProvider on a backend URL that
does not start with http. -/
def nonHttpMsg : String :=
  "PROVIDER backend_url must start with http:// or https://"

/-- Core of parseProvider on the character list of the input string.  The
destructuring assignment of the source takes the first three split segments
(undefined when fewer than three exist, which the truthiness test treats
exactly like the empty string, so both are modelled as the empty list). -/
def parseProviderCore (l : List Char) : Except String ProviderConfig :=
  let parts := jsSplitOn ',' l
  let backendUrl := (parts[0]?).getD []
  let userId := (parts[1]?).getD []
  let signature := (parts[2]?).getD []
  if backendUrl = [] ∨ userId = [] ∨ signature = [] then
    .error invalidProviderMsg
  else if !(startsWithHttp backendUrl) then
    .error nonHttpMsg
  else
    .ok { backendUrl := String.mk backendUrl, userId := String.mk userId,
          signature := String.mk signature }

/-- parseProvider from EnvConfig.ts, with the thrown exceptions modelled as
Except.error. -/
def parseProvider (s : String) : Except String ProviderConfig :=
  parseProviderCore s.data

/-- Parsed view of a PEM certificate as CertificateManager.ts uses it: only
the notAfter validity bound is consumed, as a millisecond timestamp. -/
structure ParsedCert where
  notAfter : Int
deriving DecidableEq, Repr

/-- CertificateState from CertificateManager.ts; expiresAt is a millisecond
timestamp. -/
structure CertificateState where
  privateKey : String
  certificate : String
  caCertificate : String
  expiresAt : Int
deriving DecidableEq, Repr

/-- Contents of the three certificate files on disk; none models a missing
file. -/
structure Disk where
  keyFile : Option String
  certFile : Option String
  caCertFile : Option String
deriving DecidableEq, Repr

/-- Assumed total validity period of CertificateManager.ts: 72 hours in
milliseconds. -/
def validityPeriodMs : Int := 72 * 60 * 60 * 1000

/-- Renewal threshold of CertificateManager.ts: RENEWAL_THRESHOLD = 0.5 times
the validity period; the floating-point product is exact here, so integer
halving is faithful. -/
def renewalThresholdMs : Int := validityPeriodMs / 2

/-- needsRenewal from CertificateManager.ts, over millisecond timestamps. -/
def needsRenewal (expiresAt now : Int) : Bool :=
  if expiresAt - now ≤ 0 then true
  else decide (expiresAt - now < renewalThresholdMs)

/-- loadCertificateState from CertificateManager.ts: null unless all three
files exist; the expiry is taken from the notAfter field of the parsed
certificate, and a certificate that forge fails to parse (oracle
certificateFromPem yielding none) is caught and yields null. -/
def loadCertificateState (certificateFromPem : String → Option ParsedCert)
    (disk : Disk) : Option CertificateState :=
  match disk.keyFile, disk.certFile, disk.caCertFile with
  | some key, some cert, some ca =>
    match certificateFromPem cert with
    | some parsed =>
      some { privateKey := key, certificate := cert, caCertificate := ca,
             expiresAt := parsed.notAfter }
    | none => none
  | _, _, _ => none

/-- saveCertificateState from CertificateManager.ts: overwrites all three
files with the given state, regardless of the previous disk contents. -/
def saveCertificateState (state : CertificateState) (_disk : Disk) : Disk :=
  { keyFile := some state.privateKey, certFile := some state.certificate,
    caCertFile := some state.caCertificate }

/-- Success body shape of the certificate endpoint as requestCertificate
casts it. -/
structure CertData where
  certificate : String
  caCertificate : String
  expiresAt : String
deriving DecidableEq, Repr

/-- Oracle for the certificate request exchange.  netError covers a rejected
fetch, with isAbort recording whether the rejection was the timeout abort.
reply carries Response.ok, the status, the status text, the error field of the
body as read by the non-ok branch (none when that parse failed or the field is
absent), and the JSON parse outcome of the body as read by the ok branch. -/
inductive CertRequestOutcome where
  | netError (isAbort : Bool) (msg : String)
  | reply (ok : Bool) (status : Nat) (statusText : String)
      (errBody : Option String) (body : ParseResult CertData)
deriving DecidableEq, Repr

/-- requestCertificate from CertificateManager.ts, threading the certificate
files on disk explicitly.  The CSR generation before the exchange is pure and
touches no file.  Every failure path throws before saveCertificateState runs;
only the fully successful path writes the disk.  jsDate models the Date
construction from the expiresAt string of the body. -/
def requestCertificate (provider : ProviderConfig) (keyPem : String)
    (jsDate : String → Int) (outcome : CertRequestOutcome) (disk : Disk) :
    Except String CertificateState × Disk :=
  match outcome with
  | .netError isAbort msg =>
    (.error (if isAbort then "Certificate request timed out" else msg), disk)
  | .reply ok status statusText errBody body =>
    if !ok then
      (.error ("Certificate request failed: " ++ toString status ++ " - " ++
        orDefault errBody statusText), disk)
    else
      match body with
      | .malformed msg => (.error msg, disk)
      | .value data =>
        let state : CertificateState :=
          { privateKey := keyPem, certificate := data.certificate,
            caCertificate := data.caCertificate,
            expiresAt := jsDate data.expiresAt }
        (.ok state, saveCertificateState state disk)

/-- Address resolution expression of the main loop (part_000):
config.PUBLIC_IP OR await detectPublicIp().  A truthy (non-empty) configured
value short-circuits; only an empty configuration evaluates the discovery
call, whose outcome is the detect oracle. -/
def resolveIp (publicIpCfg : String) (detect : Except String String) :
    Except String String :=
  if publicIpCfg = "" then detect else .ok publicIpCfg

/-- One steady-state refresh iteration of the main loop (part_000): resolve
the address; on a thrown discovery failure the catch block logs and the
iteration ends with the route untouched and no registration call; otherwise
the route ip field is overwritten when the resolved address differs, and
registerRoutes is then called with the (possibly updated) route as its
singleton route list.  The second component records the route list passed to
registerRoutes, none when no call is made. -/
def refreshIteration (publicIpCfg : String) (detect : Except String String)
    (route : Route) : Route × Option (List Route) :=
  match resolveIp publicIpCfg detect with
  | .error _ => (route, none)
  | .ok currentIp =>
    let updated := if currentIp ≠ route.ip then { route with ip := currentIp }
      else route
    (updated, some [updated])

/-- Route state after n steady-state refresh iterations of the main loop,
with detects giving the discovery outcome of each iteration. -/
def runRefresh (publicIpCfg : String) (detects : Nat → Except String String)
    (route : Route) : Nat → Route
  | 0 => route
  | n + 1 =>
    (refreshIteration publicIpCfg (detects n)
      (runRefresh publicIpCfg detects route n)).1

/-- C3: needsRenewal is true when expiresAt is at or before the current time,
true when the remaining lifetime is positive but strictly below 36 hours
(half of the assumed 72-hour validity period), and false when the remaining
lifetime is 36 hours or more. -/
theorem needsRenewal_cases (expiresAt now : Int) :
    (expiresAt ≤ now → needsRenewal expiresAt now = true) ∧
    (0 < expiresAt - now ∧ expiresAt - now < 36 * 60 * 60 * 1000 →
      needsRenewal expiresAt now = true) ∧
    (36 * 60 * 60 * 1000 ≤ expiresAt - now →
      needsRenewal expiresAt now = false) := by
  refine ⟨fun h => ?_, fun h => ?_, fun h => ?_⟩ <;>
    simp only [needsRenewal, renewalThresholdMs, validityPeriodMs] <;>
    split_ifs <;>
    first
      | rfl
      | (simp only [decide_eq_true_eq, decide_eq_false_iff_not]; omega)
      | omega

/-- Closed instances of needsRenewal_cases: an expired certificate needs
renewal, a certificate with the full 72 hours remaining does not. -/
theorem needsRenewal_cases_witness :
    needsRenewal 100 200 = true ∧ needsRenewal 259200000 0 = false :=
  ⟨(needsRenewal_cases 100 200).1 (by decide),
   (needsRenewal_cases 259200000 0).2.2 (by decide)⟩

/-- C5: loadCertificateState yields none when any one of the three artifacts
is missing or the certificate does not parse, even if the other artifacts are
present and valid; when it yields a state, the expiresAt of that state is the
notAfter validity bound of the parsed stored certificate. -/
theorem loadCertificateState_cases (certificateFromPem : String → Option ParsedCert)
    (disk : Disk) :
    ((disk.keyFile = none ∨ disk.certFile = none ∨ disk.caCertFile = none) →
      loadCertificateState certificateFromPem disk = none) ∧
    (∀ cert, disk.certFile = some cert → certificateFromPem cert = none →
      loadCertificateState certificateFromPem disk = none) ∧
    (∀ state, loadCertificateState certificateFromPem disk = some state →
      ∃ cert parsed, disk.certFile = some cert ∧
        certificateFromPem cert = some parsed ∧
        state.certificate = cert ∧ state.expiresAt = parsed.notAfter) := by
  obtain ⟨k, c, ca⟩ := disk
  cases k with
  | none =>
    exact ⟨fun _ => rfl, fun _ _ _ => rfl,
      fun state hst => Option.noConfusion hst⟩
  | some key =>
  cases c with
  | none =>
    exact ⟨fun _ => rfl, fun cert hc _ => Option.noConfusion hc,
      fun state hst => Option.noConfusion hst⟩
  | some cert0 =>
  cases ca with
  | none =>
    exact ⟨fun _ => rfl, fun _ _ _ => rfl,
      fun state hst => Option.noConfusion hst⟩
  | some ca0 =>
  refine ⟨fun h => ?_, fun cert hc hp => ?_, fun state hst => ?_⟩
  · rcases h with h | h | h <;> exact Option.noConfusion h
  · obtain rfl := Option.some.inj hc
    simp [loadCertificateState, hp]
  · have hst2 : (match certificateFromPem cert0 with
        | some parsed =>
          some { privateKey := key, certificate := cert0, caCertificate := ca0,
                 expiresAt := parsed.notAfter }
        | none => (none : Option CertificateState)) = some state := hst
    cases hp : certificateFromPem cert0 with
    | none => rw [hp] at hst2; exact Option.noConfusion hst2
    | some parsed =>
      rw [hp] at hst2
      obtain rfl := Option.some.inj hst2
      exact ⟨cert0, parsed, rfl, hp, rfl, rfl⟩

/-- Closed instance of loadCertificateState_cases: a missing private key
forces none even though the certificate and CA files are present and the
certificate parses. -/
theorem loadCertificateState_cases_witness :
    loadCertificateState (fun _ => some ⟨42⟩) ⟨none, some "cert", some "ca"⟩ = none :=
  (loadCertificateState_cases (fun _ => some ⟨42⟩)
    ⟨none, some "cert", some "ca"⟩).1 (Or.inl rfl)

/-- C7: when requestCertificate fails (rejected fetch, timeout abort, non-ok
response status, or unparseable body) the certificate files on disk are
returned unchanged, so a previously installed certificate survives a failed
renewal; only a successful call persists, and then the disk holds exactly the
saved new state. -/
theorem requestCertificate_disk (provider : ProviderConfig) (keyPem : String)
    (jsDate : String → Int) (outcome : CertRequestOutcome) (disk : Disk) :
    (∀ msg,
      (requestCertificate provider keyPem jsDate outcome disk).1 = Except.error msg →
      (requestCertificate provider keyPem jsDate outcome disk).2 = disk) ∧
    (∀ state,
      (requestCertificate provider keyPem jsDate outcome disk).1 = Except.ok state →
      (requestCertificate provider keyPem jsDate outcome disk).2 =
        saveCertificateState state disk) := by
  cases outcome with
  | netError isAbort msg => simp [requestCertificate]
  | reply ok status statusText errBody body =>
    cases ok <;> cases body <;> simp_all [requestCertificate]

/-- Closed instance of requestCertificate_disk: a timed-out certificate
request leaves the previously stored files untouched. -/
theorem requestCertificate_disk_witness :
    (requestCertificate ⟨"http://b", "u", "s"⟩ "key" (fun _ => 0)
      (CertRequestOutcome.netError true "aborted")
      ⟨some "k0", some "c0", some "a0"⟩).2 =
      ⟨some "k0", some "c0", some "a0"⟩ :=
  (requestCertificate_disk ⟨"http://b", "u", "s"⟩ "key" (fun _ => 0)
    (CertRequestOutcome.netError true "aborted")
    ⟨some "k0", some "c0", some "a0"⟩).1 "Certificate request timed out" rfl

/-- C1 counterexample: a delivered response with the non-2xx status 404 whose
body parses as JSON and carries no error field yields success = true, because
httpPost never consults the HTTP status of a delivered response; this refutes
the clause that a non-2xx status yields success = false. -/
theorem registerRoutes_non2xx_success :
    responseOk 404 = false ∧
    (registerRoutes ⟨"http://backend", "user", "sig"⟩ []
      (PostOutcome.reply 404
        (ParseResult.value ⟨none, none, none, none⟩))).success = true :=
  ⟨by decide, rfl⟩

/-- C1 (amended): registerRoutes returns success = true exactly when the
transport delivers a response whose body parses as JSON and whose parsed body
has no truthy error field — the HTTP status code is not consulted; any
transport failure or unparseable body, and any parsed body with a truthy
error field, yields success = false together with a descriptive error string,
and the function is total (never an unhandled fault). -/
theorem registerRoutes_success_characterization (provider : ProviderConfig)
    (routes : List Route) (outcome : PostOutcome RouteRegResponse) :
    ((registerRoutes provider routes outcome).success = true ↔
      ∃ status resp,
        outcome = PostOutcome.reply status (ParseResult.value resp) ∧
        truthy resp.error = false) ∧
    ((registerRoutes provider routes outcome).success = false →
      ∃ m, (registerRoutes provider routes outcome).error = some m) := by
  cases outcome with
  | netError msg =>
    constructor
    · simp [registerRoutes, httpPost]
    · exact fun _ => ⟨msg, rfl⟩
  | reply status body =>
    cases body with
    | malformed msg =>
      constructor
      · simp [registerRoutes, httpPost]
      · exact fun _ => ⟨msg, rfl⟩
    | value resp =>
      constructor
      · constructor
        · intro hs
          refine ⟨status, resp, rfl, ?_⟩
          by_contra ht
          have ht2 : truthy resp.error = true := by
            cases h : truthy resp.error
            · exact absurd h ht
            · rfl
          simp [registerRoutes, httpPost, ht2] at hs
        · rintro ⟨st, r, heq, ht⟩
          obtain ⟨rfl, rfl⟩ : status = st ∧ resp = r := by
            injection heq with h1 h2
            injection h2 with h3
            exact ⟨h1, h3⟩
          simp [registerRoutes, httpPost, ht]
      · intro hs
        cases ht : truthy resp.error with
        | false => simp [registerRoutes, httpPost, ht] at hs
        | true =>
          cases hre : resp.error with
          | none => simp [truthy, hre] at ht
          | some e =>
            rw [hre] at ht
            exact ⟨e, by simp [registerRoutes, httpPost, hre, ht]⟩

/-- Closed instance of registerRoutes_success_characterization: a rejected
fetch produces a result whose error field is populated. -/
theorem registerRoutes_success_characterization_witness :
    ∃ m, (registerRoutes ⟨"http://backend", "user", "sig"⟩ []
      (PostOutcome.netError "connect ECONNREFUSED")).error = some m :=
  (registerRoutes_success_characterization ⟨"http://backend", "user", "sig"⟩ []
    (PostOutcome.netError "connect ECONNREFUSED")).2 rfl

/-- C2: simulated transport failures never escape as exceptions.  A rejected
fetch (timeout, connection refused) or a malformed JSON reply makes
registerRoutes and sendHeartbeat return success = false carrying the failure
message (non-empty whenever the underlying message is, as every runtime
message for these failures is), and makes checkBackendHealth — the probe —
return false; a reply whose body JSON.parse rejects also makes the probe
return false whatever its status.  All four modelled functions are total, so
no input raises. -/
theorem transportFailure_results (provider : ProviderConfig)
    (routes : List Route) (msg : String) (status : Nat)
    (statusText body : String) (jsonParses : String → Bool)
    (hmsg : msg ≠ "") :
    ((registerRoutes provider routes (PostOutcome.netError msg)).success = false ∧
      (registerRoutes provider routes (PostOutcome.netError msg)).error = some msg ∧
      msg ≠ "") ∧
    ((registerRoutes provider routes
        (PostOutcome.reply status (ParseResult.malformed msg))).success = false ∧
      (registerRoutes provider routes
        (PostOutcome.reply status (ParseResult.malformed msg))).error = some msg) ∧
    ((sendHeartbeat provider (PostOutcome.netError msg)).success = false ∧
      (sendHeartbeat provider (PostOutcome.netError msg)).error = some msg) ∧
    ((sendHeartbeat provider
        (PostOutcome.reply status (ParseResult.malformed msg))).success = false ∧
      (sendHeartbeat provider
        (PostOutcome.reply status (ParseResult.malformed msg))).error = some msg) ∧
    (checkBackendHealth jsonParses (GetOutcome.netError msg) = false) ∧
    (jsonParses body = false →
      checkBackendHealth jsonParses
        (GetOutcome.reply status statusText body) = false) := by
  refine ⟨⟨rfl, rfl, hmsg⟩, ⟨rfl, rfl⟩, ⟨rfl, rfl⟩, ⟨rfl, rfl⟩, rfl, fun hb => ?_⟩
  cases hok : responseOk status with
  | true => simp [checkBackendHealth, httpGet, hok, hb]
  | false => simp [checkBackendHealth, httpGet, hok]

/-- Closed instance of transportFailure_results: a connection-refused fetch
failure yields a success = false registration result with that message. -/
theorem transportFailure_results_witness :
    (registerRoutes ⟨"http://backend", "user", "sig"⟩ []
      (PostOutcome.netError "fetch failed")).success = false ∧
    (registerRoutes ⟨"http://backend", "user", "sig"⟩ []
      (PostOutcome.netError "fetch failed")).error = some "fetch failed" ∧
    "fetch failed" ≠ "" :=
  (transportFailure_results ⟨"http://backend", "user", "sig"⟩ [] "fetch failed"
    200 "OK" "not json" (fun _ => false) (by decide)).1

/-- C8: in a steady-state refresh iteration whose address resolution yields
newIp, if newIp differs from the current route address then the route has its
ip field set to newIp while port, priority and healthCheck are left unchanged,
and registerRoutes is then called with exactly that updated route as its
singleton route list; if newIp equals the current address the route is not
modified at all and registerRoutes is called with the unmodified route. -/
theorem refreshIteration_addressChange (publicIpCfg : String)
    (detect : Except String String) (route : Route) (newIp : String)
    (hres : resolveIp publicIpCfg detect = Except.ok newIp) :
    (newIp ≠ route.ip →
      (refreshIteration publicIpCfg detect route).1.ip = newIp ∧
      (refreshIteration publicIpCfg detect route).1.port = route.port ∧
      (refreshIteration publicIpCfg detect route).1.priority = route.priority ∧
      (refreshIteration publicIpCfg detect route).1.healthCheck = route.healthCheck ∧
      (refreshIteration publicIpCfg detect route).2 =
        some [(refreshIteration publicIpCfg detect route).1]) ∧
    (newIp = route.ip →
      refreshIteration publicIpCfg detect route = (route, some [route])) := by
  constructor
  · intro hne
    simp [refreshIteration, hres, hne]
  · intro heq
    simp [refreshIteration, hres, heq]

/-- Closed instance of refreshIteration_addressChange: a configured address
that differs from the current route address is written into the route, the
other fields survive, and the updated route is what gets registered. -/
theorem refreshIteration_addressChange_witness :
    (refreshIteration "2.2.2.2" (Except.error "unused")
      ⟨"1.1.1.1", 443, 1, none⟩).1.ip = "2.2.2.2" ∧
    (refreshIteration "2.2.2.2" (Except.error "unused")
      ⟨"1.1.1.1", 443, 1, none⟩).1.port = (443 : Int) ∧
    (refreshIteration "2.2.2.2" (Except.error "unused")
      ⟨"1.1.1.1", 443, 1, none⟩).1.priority = (1 : Int) ∧
    (refreshIteration "2.2.2.2" (Except.error "unused")
      ⟨"1.1.1.1", 443, 1, none⟩).1.healthCheck = none ∧
    (refreshIteration "2.2.2.2" (Except.error "unused")
      ⟨"1.1.1.1", 443, 1, none⟩).2 =
      some [(refreshIteration "2.2.2.2" (Except.error "unused")
        ⟨"1.1.1.1", 443, 1, none⟩).1] :=
  (refreshIteration_addressChange "2.2.2.2" (Except.error "unused")
    ⟨"1.1.1.1", 443, 1, none⟩ "2.2.2.2" rfl).1 (by decide)

/-- C10: with a non-empty configured public address, the resolution expression
yields the configured value whatever the discovery oracle would return — so
discovery is never consulted — both at bootstrap and in every refresh
iteration, and the route built from it keeps exactly that address after any
number of refresh iterations. -/
theorem publicIpOverride_invariant (cfg : String) (hcfg : cfg ≠ "") :
    (∀ detect, resolveIp cfg detect = Except.ok cfg) ∧
    (∀ (port priority : Int) (hc : Option HealthCheckConfig)
        (detects : Nat → Except String String) (n : Nat),
      (runRefresh cfg detects (buildRoute cfg port priority hc) n).ip = cfg) := by
  have hres : ∀ detect, resolveIp cfg detect = Except.ok cfg := by
    intro detect
    simp [resolveIp, hcfg]
  refine ⟨hres, ?_⟩
  intro port priority hc detects n
  induction n with
  | zero => rfl
  | succ n ih =>
    show (refreshIteration cfg (detects n)
      (runRefresh cfg detects (buildRoute cfg port priority hc) n)).1.ip = cfg
    rw [refreshIteration, hres]
    simp [ih]

/-- Closed instance of publicIpOverride_invariant: with PUBLIC_IP set to
9.9.9.9 and a discovery oracle that always fails, three refresh iterations
leave the route address at the configured value. -/
theorem publicIpOverride_invariant_witness :
    (runRefresh "9.9.9.9" (fun _ => Except.error "discovery down")
      (buildRoute "9.9.9.9" 443 1 none) 3).ip = "9.9.9.9" :=
  (publicIpOverride_invariant "9.9.9.9" (by decide)).2 443 1 none
    (fun _ => Except.error "discovery down") 3

/-- Splitting a separator-free list yields that list as the only segment. -/
theorem jsSplitOn_nosep (sep : Char) :
    ∀ l : List Char, sep ∉ l → jsSplitOn sep l = [l] := by
  intro l
  induction l with
  | nil => intro _; rfl
  | cons c rest ih =>
    intro h
    have hc : ¬(c = sep) := fun e => h (e ▸ List.mem_cons_self c rest)
    have hrest : sep ∉ rest := fun hm => h (List.mem_cons_of_mem c hm)
    unfold jsSplitOn
    rw [if_neg hc, ih hrest]

/-- Splitting a list that begins with a separator-free segment followed by a
separator peels off that segment. -/
theorem jsSplitOn_append (sep : Char) :
    ∀ a rest : List Char, sep ∉ a →
      jsSplitOn sep (a ++ sep :: rest) = a :: jsSplitOn sep rest := by
  intro a
  induction a with
  | nil =>
    intro rest _
    simp [jsSplitOn]
  | cons c a ih =>
    intro rest h
    have hc : ¬(c = sep) := fun e => h (e ▸ List.mem_cons_self c a)
    have ha : sep ∉ a := fun hm => h (List.mem_cons_of_mem c hm)
    show jsSplitOn sep (c :: (a ++ sep :: rest)) = (c :: a) :: jsSplitOn sep rest
    simp only [jsSplitOn]
    rw [if_neg hc, ih rest ha]

/-- C4: every identity string of the exact form url,id,sig — three non-empty
comma-free fields with the first starting with http — parses successfully and
round-trips the three fields exactly; every string whose first three
comma-split fields include a missing or empty one fails with the invalid
format error, and every string with three non-empty fields whose first does
not start with http fails with the non-http error. -/
theorem parseProvider_spec :
    (∀ a b c : List Char, a ≠ [] → b ≠ [] → c ≠ [] →
      (',' : Char) ∉ a → (',' : Char) ∉ b → (',' : Char) ∉ c →
      startsWithHttp a = true →
      parseProvider (String.mk (a ++ ',' :: (b ++ ',' :: c))) =
        Except.ok ⟨String.mk a, String.mk b, String.mk c⟩) ∧
    (∀ s : String,
      ((jsSplitOn ',' s.data)[0]?.getD [] = [] ∨
       (jsSplitOn ',' s.data)[1]?.getD [] = [] ∨
       (jsSplitOn ',' s.data)[2]?.getD [] = [] →
        parseProvider s = Except.error invalidProviderMsg) ∧
      ((jsSplitOn ',' s.data)[0]?.getD [] ≠ [] →
       (jsSplitOn ',' s.data)[1]?.getD [] ≠ [] →
       (jsSplitOn ',' s.data)[2]?.getD [] ≠ [] →
       startsWithHttp ((jsSplitOn ',' s.data)[0]?.getD []) = false →
        parseProvider s = Except.error nonHttpMsg)) := by
  constructor
  · intro a b c ha hb hc hca hcb hcc hhttp
    have h1 : jsSplitOn ',' (a ++ ',' :: (b ++ ',' :: c)) = [a, b, c] := by
      rw [jsSplitOn_append ',' a (b ++ ',' :: c) hca,
          jsSplitOn_append ',' b c hcb, jsSplitOn_nosep ',' c hcc]
    show parseProviderCore (a ++ ',' :: (b ++ ',' :: c)) =
      Except.ok ⟨String.mk a, String.mk b, String.mk c⟩
    unfold parseProviderCore
    rw [h1]
    simp [ha, hb, hc, hhttp]
  · intro s
    constructor
    · intro h
      show parseProviderCore s.data = Except.error invalidProviderMsg
      unfold parseProviderCore
      rw [if_pos h]
    · intro h0 h1 h2 hh
      show parseProviderCore s.data = Except.error nonHttpMsg
      unfold parseProviderCore
      rw [if_neg (by simp [h0, h1, h2]), if_pos (by simp [hh])]

/-- Closed instance of parseProvider_spec: a well-formed three-field identity
string parses to exactly its three fields. -/
theorem parseProvider_spec_witness :
    parseProvider (String.mk
      ("http://api".data ++ ',' :: ("alice".data ++ ',' :: "sig1".data))) =
      Except.ok ⟨String.mk "http://api".data, String.mk "alice".data,
        String.mk "sig1".data⟩ :=
  parseProvider_spec.1 "http://api".data "alice".data "sig1".data
    (by decide) (by decide) (by decide) (by decide) (by decide) (by decide)
    (by decide)

/-- C9: parseProvider accepts identity strings with more than three
comma-separated fields — everything after the third comma is silently
discarded and only the first three fields are returned — and such an input is
strictly longer than the rendering of the three returned fields, so parsing
round-trips the input only when it has exactly three fields. -/
theorem parseProvider_extraFields (a b c rest : List Char)
    (ha : a ≠ []) (hb : b ≠ []) (hc : c ≠ [])
    (hca : (',' : Char) ∉ a) (hcb : (',' : Char) ∉ b) (hcc : (',' : Char) ∉ c)
    (hhttp : startsWithHttp a = true) :
    parseProvider (String.mk (a ++ ',' :: (b ++ ',' :: (c ++ ',' :: rest)))) =
      Except.ok ⟨String.mk a, String.mk b, String.mk c⟩ ∧
    String.mk (a ++ ',' :: (b ++ ',' :: (c ++ ',' :: rest))) ≠
      String.mk (a ++ ',' :: (b ++ ',' :: c)) := by
  constructor
  · have h1 : jsSplitOn ',' (a ++ ',' :: (b ++ ',' :: (c ++ ',' :: rest))) =
        a :: b :: c :: jsSplitOn ',' rest := by
      rw [jsSplitOn_append ',' a (b ++ ',' :: (c ++ ',' :: rest)) hca,
          jsSplitOn_append ',' b (c ++ ',' :: rest) hcb,
          jsSplitOn_append ',' c rest hcc]
    show parseProviderCore (a ++ ',' :: (b ++ ',' :: (c ++ ',' :: rest))) =
      Except.ok ⟨String.mk a, String.mk b, String.mk c⟩
    unfold parseProviderCore
    rw [h1]
    simp [ha, hb, hc, hhttp]
  · intro heq
    have hdata : a ++ ',' :: (b ++ ',' :: (c ++ ',' :: rest)) =
        a ++ ',' :: (b ++ ',' :: c) := congrArg String.data heq
    have hlen := congrArg List.length hdata
    simp [List.length_append] at hlen

/-- Closed instance of parseProvider_extraFields: a four-field identity
string parses to its first three fields and differs from their rendering. -/
theorem parseProvider_extraFields_witness :
    parseProvider (String.mk ("http://api".data ++ ',' :: ("alice".data ++
      ',' :: ("sig1".data ++ ',' :: "extra".data)))) =
      Except.ok ⟨String.mk "http://api".data, String.mk "alice".data,
        String.mk "sig1".data⟩ ∧
    String.mk ("http://api".data ++ ',' :: ("alice".data ++
      ',' :: ("sig1".data ++ ',' :: "extra".data))) ≠
      String.mk ("http://api".data ++ ',' :: ("alice".data ++
        ',' :: "sig1".data)) :=
  parseProvider_extraFields "http://api".data "alice".data "sig1".data
    "extra".data (by decide) (by decide) (by decide) (by decide) (by decide)
    (by decide) (by decide)

/-- Fallback scan of the service list is exactly a first-match search: it
yields the outcome of the earliest service whose reply trims to a valid IP
literal, and the exhaustion error when no service does. -/
theorem tryServices_eq_findSome (fetchOf : String → GetOutcome) :
    ∀ l : List String, tryServices fetchOf l =
      match l.findSome? (serviceResult fetchOf) with
      | some ip => Except.ok ip
      | none => Except.error discoveryFailMsg := by
  intro l
  induction l with
  | nil => rfl
  | cons s rest ih =>
    rw [List.findSome?_cons]
    cases hg : httpGet (fetchOf s) with
    | error e =>
      have hsr : serviceResult fetchOf s = none := by
        simp [serviceResult, hg]
      simp only [tryServices, hg, hsr]
      exact ih
    | ok text =>
      by_cases hv : isValidIp (jsTrim text) = true
      · have hsr : serviceResult fetchOf s = some (jsTrim text) := by
          simp [serviceResult, hg, hv]
        simp only [tryServices, hg, hsr]
        rw [if_pos hv]
      · have hv2 : isValidIp (jsTrim text) = false := by
          cases h : isValidIp (jsTrim text)
          · rfl
          · exact absurd h hv
        have hsr : serviceResult fetchOf s = none := by
          simp [serviceResult, hg, hv2]
        simp only [tryServices, hg, hsr]
        rw [if_neg hv]
        exact ih

/-- C6: detectPublicIp consults the primary STUN discovery exactly once — a
successful attempt is returned directly with no fallback traffic; on a failed
attempt the fixed fallback service list is scanned in order exactly once,
returning the first reply that trims to a syntactically valid IPv4 or IPv6
literal, and when the primary and every fallback are exhausted without a
valid address the discovery-exhausted error is returned. -/
theorem detectPublicIp_spec (stun : Except String String)
    (fetchOf : String → GetOutcome) :
    (∀ ip, stun = Except.ok ip → detectPublicIp stun fetchOf = Except.ok ip) ∧
    (∀ e, stun = Except.error e →
      ((∀ ip, List.findSome? (serviceResult fetchOf) httpServices = some ip →
          detectPublicIp stun fetchOf = Except.ok ip) ∧
       ((∀ s ∈ httpServices, serviceResult fetchOf s = none) →
          detectPublicIp stun fetchOf = Except.error discoveryFailMsg))) := by
  constructor
  · intro ip hs
    subst hs
    rfl
  · intro e hs
    subst hs
    constructor
    · intro ip hfirst
      show tryServices fetchOf httpServices = Except.ok ip
      rw [tryServices_eq_findSome fetchOf httpServices, hfirst]
    · intro hnone
      show tryServices fetchOf httpServices = Except.error discoveryFailMsg
      rw [tryServices_eq_findSome fetchOf httpServices,
        List.findSome?_eq_none_iff.mpr hnone]

/-- Closed instance of detectPublicIp_spec: with the STUN attempt failing and
every fallback service unreachable, discovery fails with the exhaustion
error. -/
theorem detectPublicIp_spec_witness :
    detectPublicIp (Except.error "stun failed")
      (fun _ => GetOutcome.netError "down") = Except.error discoveryFailMsg :=
  ((detectPublicIp_spec (Except.error "stun failed")
    (fun _ => GetOutcome.netError "down")).2 "stun failed" rfl).2
    (fun s _ => rfl)

end MeshAgent
